import Mathlib

/-
  Verification development for the virt-who test harness runner
  (virtwho/runner.py and virtwho/configure.py).

  The Python source is shallowly embedded: remote side effects (ssh
  command results, sleeps, the current contents of remote files) are
  passed in explicitly as data, Python exceptions are modelled with
  Except, and the regular expressions actually used by the source
  (all of which are alternation-free sequences of literals joined by
  dot-star, or single capture groups) are modelled by dedicated
  executable scanners with the same matching semantics.
-/

namespace Virtwho

/-! ## Character and list-of-character primitives -/

/-- Lowercase a list of characters (model of Python re.I matching and
str.lower-style comparisons on ASCII log text). -/
def lcList (l : List Char) : List Char := l.map Char.toLower

/-- Does `pat` occur at the head of `l`? -/
def subAt : List Char → List Char → Bool
  | [], _ => true
  | _ :: _, [] => false
  | a :: as, b :: bs => a == b && subAt as bs

/-- Index of the first occurrence of `pat` in `l`, if any
(model of the scanning done by Python re for a literal pattern). -/
def findSub (pat : List Char) : List Char → Option Nat
  | [] => if pat.isEmpty then some 0 else none
  | c :: tl =>
    if subAt pat (c :: tl) then some 0
    else (findSub pat tl).map (· + 1)

/-- Case-sensitive substring test (model of the Python `in` operator
on str and of grep with a metacharacter-free pattern). -/
def containsSubCS (pat s : String) : Bool := (findSub pat.data s.data).isSome

/-- Case-insensitive substring test. -/
def containsSubCI (pat s : String) : Bool :=
  (findSub (lcList pat.data) (lcList s.data)).isSome

/-- Count of non-overlapping occurrences of `pat` in `l`, scanning left to
right and resuming after the end of each match: the semantics of
`len(re.findall(pat, text))` for a literal `pat`.  The `skip` argument
carries how many positions are still covered by the previous match. -/
def countSubGo (pat : List Char) : List Char → Nat → Nat
  | [], _ => 0
  | _ :: tl, skip + 1 => countSubGo pat tl skip
  | c :: tl, 0 =>
    if subAt pat (c :: tl) then 1 + countSubGo pat tl (pat.length - 1)
    else countSubGo pat tl 0

/-- `len(re.findall(pat, text))` for a literal pattern; the empty pattern
matches once at every position including the end, as in Python. -/
def countSubList (pat l : List Char) : Nat :=
  countSubGo pat l 0 + (if pat.isEmpty then 1 else 0)

/-- Case-sensitive occurrence count on strings. -/
def countSubCS (pat s : String) : Nat := countSubList pat.data s.data

/-- Case-insensitive occurrence count on strings (re.I). -/
def countSubCI (pat s : String) : Nat :=
  countSubList (lcList pat.data) (lcList s.data)

/-! ## Lines

Python `str.split("\n")` and the line orientation of grep. -/

/-- Split on newline characters; `cur` is the (reversed) current piece. -/
def splitNlGo (cur : List Char) : List Char → List (List Char)
  | [] => [cur.reverse]
  | c :: tl =>
    if c = '\n' then cur.reverse :: splitNlGo [] tl
    else splitNlGo (c :: cur) tl

/-- The lines of a string, as `s.split("\n")` returns them. -/
def splitLines (s : String) : List String := (splitNlGo [] s.data).map String.mk

/-- Join character lists with newline separators. -/
def joinNlL : List (List Char) → List Char
  | [] => []
  | [x] => x
  | x :: xs => x ++ '\n' :: joinNlL xs

/-- Join strings with newline separators (model of "\n".join and of the
output stream of grep). -/
def joinNl (l : List String) : String := String.mk (joinNlL (l.map String.data))

/-! ## Python str.strip -/

/-- Python whitespace characters stripped by str.strip(). -/
def isWs (c : Char) : Bool :=
  c = ' ' || c = '\t' || c = '\n' || c = '\r' || c = '\x0b' || c = '\x0c'

/-- str.strip() on character lists. -/
def stripChars (l : List Char) : List Char :=
  ((l.dropWhile isWs).reverse.dropWhile isWs).reverse

/-- str.strip() on strings. -/
def pyStrip (s : String) : String := String.mk (stripChars s.data)

/-! ## Regex models

Every regex in runner.py is (a) a literal, (b) a sequence of literals
joined by `.*` (no re.S flag, so a match never crosses a newline), or
(c) a single non-greedy capture between two literals.  For patterns of
shape (b), a line admits at most one non-overlapping match (the greedy
trailing `.*` extends every match to the last feasible final literal on
the line), so `len(re.findall(...))` is the number of matching lines,
and a line matches iff its literals occur left to right, which the
first-fit scan below decides. -/

/-- First-fit check that the literals `parts` occur in order within the
characters of one line. -/
def lineSeqAt : List (List Char) → List Char → Bool
  | [], _ => true
  | p :: ps, l =>
    match findSub p l with
    | none => false
    | some i => lineSeqAt ps (l.drop (i + p.length))

/-- Case-sensitive line match for a `.*`-joined sequence of literals
(grep without -i). -/
def lineHasSeqCS (parts : List String) (line : String) : Bool :=
  lineSeqAt (parts.map String.data) line.data

/-- Case-insensitive line match for a `.*`-joined sequence of literals
(re.I). -/
def lineHasSeqCI (parts : List String) (line : String) : Bool :=
  lineSeqAt (parts.map (fun p => lcList p.data)) (lcList line.data)

/-- The two regex shapes used with re.findall / re.search in runner.py. -/
inductive Pat where
  | lit (s : String)
  | seq (parts : List String)
deriving DecidableEq

/-- `len(re.findall(pat, text, re.I))` for the two pattern shapes. -/
def countPatCI (p : Pat) (text : String) : Nat :=
  match p with
  | .lit s => countSubCI s text
  | .seq parts => ((splitLines text).filter (fun l => lineHasSeqCI parts l)).length

/-- Model of `msg_search(output, msg)` for a single pattern without `|`:
true iff `msg_number(output, msg) > 0` (runner.py lines 504-541). -/
def msg_search (output : String) (p : Pat) : Bool := countPatCI p output != 0

/-! ## Non-greedy single-capture regexes

`reporter_id='(.*?)'`, `Starting infinite loop with(.*?)seconds interval`
and `Report for config "(.*?)"` all scan for an opening literal, then a
closing literal later on the same line (no re.S: `.` does not match a
newline); the first position where both succeed yields the capture. -/

/-- Find the first index of `pat` occurring before any newline. -/
def findInLine (pat : List Char) : List Char → Option Nat
  | [] => if pat.isEmpty then some 0 else none
  | c :: tl =>
    if subAt pat (c :: tl) then some 0
    else if c = '\n' then none
    else (findInLine pat tl).map (· + 1)

/-- First capture of `openP(.*?)closeP` in `l`, Python re scanning:
advance one position on failure, non-greedy capture up to the first
closing literal on the same line. -/
def captureScan (openP closeP : List Char) : List Char → Option (List Char)
  | [] => none
  | c :: tl =>
    if subAt openP (c :: tl) then
      let rest := (c :: tl).drop openP.length
      match findInLine closeP rest with
      | some j => some (rest.take j)
      | none => captureScan openP closeP tl
    else captureScan openP closeP tl

/-- All captures of `openP(.*?)closeP`, non-overlapping, resuming after
each closing literal (re.findall semantics). -/
def captureAllGo (openP closeP : List Char) : Nat → List Char → List (List Char)
  | 0, _ => []
  | _, [] => []
  | f + 1, c :: tl =>
    if subAt openP (c :: tl) then
      let rest := (c :: tl).drop openP.length
      match findInLine closeP rest with
      | some j =>
        rest.take j :: captureAllGo openP closeP f (rest.drop (j + closeP.length))
      | none => captureAllGo openP closeP f tl
    else captureAllGo openP closeP f tl

/-- All captures, with enough fuel for the whole input. -/
def captureAll (openP closeP : List Char) (l : List Char) : List (List Char) :=
  captureAllGo openP closeP (l.length + 1) l

/-! ## Run context

The per-run parameters: hypervisor mode and registration backend
(runner.py constructor), plus the guest uuid configured for the mode in
virtwho.ini, which `hypervisor_id` reads through
`get_hypervisor_handler(mode).guest_uuid` (configure.py lines 149-157). -/

inductive Mode where
  | esx | xen | hyperv | rhevm | libvirt | kubevirt | ahv | loc | fake
deriving DecidableEq

/-- Printable name of the mode, as used in remote paths. -/
def modeStr : Mode → String
  | .esx => "esx" | .xen => "xen" | .hyperv => "hyperv" | .rhevm => "rhevm"
  | .libvirt => "libvirt" | .kubevirt => "kubevirt" | .ahv => "ahv"
  | .loc => "local" | .fake => "fake"

inductive Register where
  | rhsm | satellite
deriving DecidableEq

structure Ctx where
  mode : Mode
  register_type : Register
  guest_uuid : String
deriving DecidableEq

/-- A single-quote character; quote-bearing literals below are assembled
with it. -/
def sq : Char := Char.ofNat 39

/-- A double-quote character. -/
def dq : Char := Char.ofNat 34

/-- The string consisting of one single quote. -/
def sqs : String := String.mk [sq]

/-- The string consisting of one double quote. -/
def dqs : String := String.mk [dq]

/-! ## Pattern constants of runner.py -/

/-- Regex `\[.*DEBUG\]` (analyzer, line 102). -/
def patDebug : Pat := .seq ["[", "DEBUG]"]

/-- Regex `Thread '.*' stopped after running once` (line 103). -/
def patOneshot : Pat := .seq ["Thread " ++ sqs, sqs ++ " stopped after running once"]

/-- Literal `virt-who terminated` (line 106). -/
def patTerminate : Pat := .lit "virt-who terminated"

/-- Literal `status=429` (lines 133, 204). -/
def pat429 : Pat := .lit "status=429"

/-- Regex `\[.*ERROR.*\]` (line 210). -/
def patErrTag : Pat := .seq ["[", "ERROR", "]"]

/-- Regex `RemoteServerException: Server error attempting a GET.*returned
status 500` (lines 140-142). -/
def pat500 : Pat :=
  .seq ["RemoteServerException: Server error attempting a GET", "returned status 500"]

/-! ## send_number (runner.py lines 243-276) -/

/-- Literal `0 hypervisors and 0 guests found`. -/
def patZeroFound : Pat := .lit "0 hypervisors and 0 guests found"

/-- Satellite backend, local mode:
`Response: status=200, request="PUT /rhsm/consumers`. -/
def patSatLocal : Pat := .lit ("Response: status=200, request=" ++ dqs ++ "PUT /rhsm/consumers")

/-- Satellite backend, remote modes:
`Response: status=200, request="POST /rhsm/hypervisors`. -/
def patSatRemote : Pat := .lit ("Response: status=200, request=" ++ dqs ++ "POST /rhsm/hypervisors")

/-- Rhsm backend, local mode:
`Response: status=20.*requestUuid.*request="PUT /subscription/consumers`. -/
def patRhsmLocal : Pat :=
  .seq ["Response: status=20", "requestUuid", "request=" ++ dqs ++ "PUT /subscription/consumers"]

/-- Rhsm backend, remote modes:
`Response: status=20.*requestUuid.*request="POST /subscription/hypervisors`. -/
def patRhsmRemote : Pat :=
  .seq ["Response: status=20", "requestUuid", "request=" ++ dqs ++ "POST /subscription/hypervisors"]

/-- Local-mode sending phrase. -/
def patSendLocal : Pat := .lit "Sending update in guests lists for config"

/-- Remote-mode sending phrase. -/
def patSendRemote : Pat := .lit "Sending updated Host-to-guest mapping to"

/-- `send_number(rhsm_log)`: choose a pattern by the branch conditions of
runner.py lines 250-274 (the branch tests use the case-sensitive `in`
operator; on the Register enumeration the two substring tests
`"satellite" in register_type` and `"rhsm" in register_type` select
exactly the backend), then count case-insensitive non-overlapping
matches (line 275). -/
def send_number (ctx : Ctx) (rhsm_log : String) : Nat :=
  let msg :=
    if containsSubCS "0 hypervisors and 0 guests found" rhsm_log then
      patZeroFound
    else if containsSubCS "virtwho.main DEBUG" rhsm_log
        || containsSubCS "rhsm.connection DEBUG" rhsm_log then
      match ctx.register_type with
      | .satellite => if ctx.mode = .loc then patSatLocal else patSatRemote
      | .rhsm => if ctx.mode = .loc then patRhsmLocal else patRhsmRemote
    else
      if ctx.mode = .loc then patSendLocal else patSendRemote
  countPatCI msg rhsm_log

/-! ## reporter_id and interval_time (runner.py lines 278-300) -/

/-- `reporter_id(rhsm_log)`: first capture of `reporter_id='(.*?)'`,
stripped; None when there is no match. -/
def reporter_id (rhsm_log : String) : Option String :=
  (captureScan ("reporter_id=" ++ sqs).data [sq] rhsm_log.data).map
    (fun l => pyStrip (String.mk l))

deriving instance DecidableEq for Except

/-- Python exceptions that the analyzer code can actually raise. -/
inductive PyErr where
  | indexError
  | keyError (k : String)
  | valueError
  | typeError
deriving DecidableEq

/-- Python `int(s)` on an already-stripped string: optional sign followed
by at least one digit; anything else raises ValueError.  (Python also
accepts digit-group underscores; the logs never contain them.) -/
def pyInt (s : String) : Except PyErr Int :=
  let digitsVal (ds : List Char) : Except PyErr Int :=
    if ds.isEmpty || !(ds.all Char.isDigit) then .error .valueError
    else .ok (ds.foldl (fun a c => a * 10 + (c.toNat - 48)) (0 : Int))
  match (pyStrip s).data with
  | '+' :: ds => digitsVal ds
  | '-' :: ds => (digitsVal ds).map Int.neg
  | ds => digitsVal ds

/-- `interval_time(rhsm_log)`: first capture of
`Starting infinite loop with(.*?)seconds interval`, stripped and passed
to `int(...)` — which raises ValueError on a non-numeric capture; None
when there is no match (runner.py lines 289-300). -/
def interval_time (rhsm_log : String) : Except PyErr (Option Int) :=
  match captureScan "Starting infinite loop with".data "seconds interval".data
      rhsm_log.data with
  | none => .ok none
  | some cap => (pyInt (String.mk cap)).map some

/-! ## JSON values and json.loads

`mappings_local` and `mappings_remote` run `json.loads` (strict=False,
after removing newlines) on text blocks cut out of the log.  The parser
below follows the JSON grammar; strict=False only permits control
characters inside strings, which the parser allows.  Numbers keep their
raw lexeme. -/

mutual

inductive JVal where
  | null
  | bool (b : Bool)
  | num (raw : String)
  | str (s : String)
  | arr (items : JList)
  | obj (fields : JFields)
deriving DecidableEq

inductive JList where
  | nil
  | cons (hd : JVal) (tl : JList)
deriving DecidableEq

inductive JFields where
  | nil
  | cons (k : String) (v : JVal) (tl : JFields)
deriving DecidableEq

end

/-- Build a JSON array node from an ordinary list. -/
def JList.ofList : List JVal → JList
  | [] => .nil
  | x :: t => .cons x (JList.ofList t)

/-- The elements of a JSON array node. -/
def JList.toList : JList → List JVal
  | .nil => []
  | .cons x t => x :: JList.toList t

/-- Build a JSON object node from an ordinary association list. -/
def JFields.ofList : List (String × JVal) → JFields
  | [] => .nil
  | (k, v) :: t => .cons k v (JFields.ofList t)

/-- The fields of a JSON object node. -/
def JFields.toList : JFields → List (String × JVal)
  | .nil => []
  | .cons k v t => (k, v) :: JFields.toList t

/-- JSON array from a list of values. -/
def jarr (l : List JVal) : JVal := .arr (JList.ofList l)

/-- JSON object from an association list. -/
def jobj (l : List (String × JVal)) : JVal := .obj (JFields.ofList l)

/-- Python dict insertion: replace in place when the key exists, else
append. -/
def objInsert (fs : List (String × JVal)) (k : String) (v : JVal) :
    List (String × JVal) :=
  match fs with
  | [] => [(k, v)]
  | (k2, v2) :: tl => if k2 = k then (k, v) :: tl else (k2, v2) :: objInsert tl k v

/-- Skip JSON whitespace. -/
def skipWs : List Char → List Char
  | [] => []
  | c :: tl =>
    if c = ' ' || c = '\t' || c = '\n' || c = '\r' then skipWs tl else c :: tl

/-- Hex digit value. -/
def hexVal (c : Char) : Option Nat :=
  if '0' ≤ c ∧ c ≤ '9' then some (c.toNat - 48)
  else if 'a' ≤ c ∧ c ≤ 'f' then some (c.toNat - 87)
  else if 'A' ≤ c ∧ c ≤ 'F' then some (c.toNat - 70)
  else none

/-- Parse the body of a JSON string after the opening quote; returns the
decoded content and the remainder after the closing quote. -/
def parseStrBody : Nat → List Char → Option (List Char × List Char)
  | 0, _ => none
  | _, [] => none
  | f + 1, c :: tl =>
    if c = dq then some ([], tl)
    else if c = '\\' then
      match tl with
      | [] => none
      | e :: tl2 =>
        if e = 'u' then
          match tl2 with
          | a :: b :: c3 :: d :: tl3 => do
            let va ← hexVal a
            let vb ← hexVal b
            let vc ← hexVal c3
            let vd ← hexVal d
            let (s, r) ← parseStrBody f tl3
            pure (Char.ofNat (((va * 16 + vb) * 16 + vc) * 16 + vd) :: s, r)
          | _ => none
        else do
          let decoded ←
            if e = dq then some dq
            else if e = '\\' then some '\\'
            else if e = '/' then some '/'
            else if e = 'b' then some (Char.ofNat 8)
            else if e = 'f' then some (Char.ofNat 12)
            else if e = 'n' then some '\n'
            else if e = 'r' then some '\r'
            else if e = 't' then some '\t'
            else none
          let (s, r) ← parseStrBody f tl2
          pure (decoded :: s, r)
    else do
      let (s, r) ← parseStrBody f tl
      pure (c :: s, r)

/-- Take a run of decimal digits. -/
def takeDigits (l : List Char) : List Char × List Char :=
  (l.takeWhile Char.isDigit, l.dropWhile Char.isDigit)

/-- Optional exponent part of a JSON number. -/
def expPart (acc : List Char) (l : List Char) : Option (List Char × List Char) :=
  match l with
  | c :: t =>
    if c = 'e' || c = 'E' then
      match t with
      | s :: t2 =>
        if s = '+' || s = '-' then
          let (d, t3) := takeDigits t2
          if d.isEmpty then none else some (acc ++ c :: s :: d, t3)
        else
          let (d, t3) := takeDigits t
          if d.isEmpty then none else some (acc ++ c :: d, t3)
      | [] => none
    else some (acc, l)
  | [] => some (acc, l)

/-- Parse a JSON number lexeme: optional minus, integer part without a
leading-zero violation, optional fraction and exponent. -/
def parseNum (l : List Char) : Option (List Char × List Char) :=
  let (sgn, l1) :=
    match l with
    | c :: t => if c = '-' then ([c], t) else (([] : List Char), l)
    | [] => ([], l)
  let (d, l2) := takeDigits l1
  if d.isEmpty then none
  else if d.length > 1 ∧ d.head? = some '0' then none
  else
    match l2 with
    | '.' :: t =>
      let (d2, l3) := takeDigits t
      if d2.isEmpty then none else expPart (sgn ++ d ++ '.' :: d2) l3
    | _ => expPart (sgn ++ d) l2

mutual

/-- Parse one JSON value (after skipping whitespace). -/
def parseVal : Nat → List Char → Option (JVal × List Char)
  | 0, _ => none
  | f + 1, l =>
    match skipWs l with
    | [] => none
    | c :: tl =>
      if c = dq then
        match parseStrBody (f + 1) tl with
        | some (s, r) => some (.str (String.mk s), r)
        | none => none
      else if c = '[' then
        match skipWs tl with
        | ']' :: r => some (jarr [], r)
        | l2 => match parseElems f l2 [] with
          | some (xs, r) => some (jarr xs, r)
          | none => none
      else if c = '{' then
        match skipWs tl with
        | '}' :: r => some (jobj [], r)
        | l2 => match parseMembers f l2 [] with
          | some (fs, r) => some (jobj fs, r)
          | none => none
      else if subAt "true".data (c :: tl) then some (.bool true, tl.drop 3)
      else if subAt "false".data (c :: tl) then some (.bool false, tl.drop 4)
      else if subAt "null".data (c :: tl) then some (.null, tl.drop 3)
      else
        match parseNum (c :: tl) with
        | some (lex, r) => some (.num (String.mk lex), r)
        | none => none

/-- Parse array elements after `[`, accumulating in reverse. -/
def parseElems : Nat → List Char → List JVal → Option (List JVal × List Char)
  | 0, _, _ => none
  | f + 1, l, acc =>
    match parseVal f l with
    | none => none
    | some (v, r) =>
      match skipWs r with
      | ',' :: r2 => parseElems f r2 (v :: acc)
      | ']' :: r2 => some ((v :: acc).reverse, r2)
      | _ => none

/-- Parse object members after `{`, accumulating a Python-style dict. -/
def parseMembers : Nat → List Char → List (String × JVal) →
    Option (List (String × JVal) × List Char)
  | 0, _, _ => none
  | f + 1, l, acc =>
    match skipWs l with
    | c :: tl =>
      if c = dq then
        match parseStrBody (f + 1) tl with
        | some (k, r) =>
          match skipWs r with
          | ':' :: r2 =>
            match parseVal f r2 with
            | none => none
            | some (v, r3) =>
              match skipWs r3 with
              | ',' :: r4 => parseMembers f r4 (objInsert acc (String.mk k) v)
              | '}' :: r4 => some (objInsert acc (String.mk k) v, r4)
              | _ => none
          | _ => none
        | none => none
      else none
    | [] => none

end

/-- `json.loads(s)`: parse a single value and require only whitespace
after it; None models a raised JSONDecodeError. -/
def jsonLoads (s : String) : Option JVal :=
  match parseVal (4 * s.data.length + 8) s.data with
  | some (v, rest) => if (skipWs rest).isEmpty then some v else none
  | none => none

/-- `s.replace("\n", "")`. -/
def stripNl (s : String) : String := String.mk (s.data.filter (fun c => c ≠ '\n'))

/-- Python subscript `v[k]` on a parsed JSON value: KeyError when the
dict lacks the key, TypeError when `v` is not a dict. -/
def jGet (v : JVal) (k : String) : Except PyErr JVal :=
  match v with
  | .obj fs =>
    match fs.toList.lookup k with
    | some x => .ok x
    | none => .error (.keyError k)
  | _ => .error .typeError

/-- Python `k in v.keys()` for a value already known to be a dict. -/
def jHas (v : JVal) (k : String) : Bool :=
  match v with
  | .obj fs => (fs.toList.lookup k).isSome
  | _ => false

/-- Python iteration `for x in v`: arrays yield elements, strings yield
one-character strings, dicts yield their keys; other values raise
TypeError. -/
def pyIter (v : JVal) : Except PyErr (List JVal) :=
  match v with
  | .arr items => .ok (JList.toList items)
  | .str s => .ok (s.data.map (fun c => JVal.str (String.mk [c])))
  | .obj fs => .ok (fs.toList.map (fun kv => JVal.str kv.1))
  | _ => .error .typeError

/-- Python `len(v)`: defined for arrays, strings and dicts; TypeError
otherwise. -/
def pyLen (v : JVal) : Except PyErr Nat :=
  match v with
  | .arr items => .ok (JList.toList items).length
  | .str s => .ok s.data.length
  | .obj fs => .ok fs.toList.length
  | _ => .error .typeError

/-- Python dict assignment `d[k] = v` on an association list: replace in
place, else append (dicts preserve insertion order). -/
def alistInsert {α β : Type} [DecidableEq α] (d : List (α × β)) (k : α) (v : β) :
    List (α × β) :=
  match d with
  | [] => [(k, v)]
  | (k2, v2) :: tl => if k2 = k then (k, v) :: tl else (k2, v2) :: alistInsert tl k v

/-! ## mappings_local (runner.py lines 356-379)

The block is cut out by `(?<=Domain info: )\[.*?\]\n+(?=\d\d\d\d|$)`
with re.S: starting at each occurrence of `Domain info: [`, the
non-greedy body extends to the first `]` that is followed by at least
one newline and then either four digits or the end of the string (`$`
also matches just before a final newline, which the maximal newline
run already covers).  `findall(...)[0]` raises IndexError when there
is no match. -/

/-- Length of the leading newline run. -/
def nlRun : List Char → Nat
  | c :: tl => if c = '\n' then nlRun tl + 1 else 0
  | [] => 0

/-- Do four digits start here? -/
def fourDigits : List Char → Bool
  | a :: b :: c :: d :: _ => a.isDigit && b.isDigit && c.isDigit && d.isDigit
  | _ => false

/-- Tail condition `\n+(?=\d\d\d\d|$)` after the closing bracket. -/
def domTailOK (rest : List Char) : Bool :=
  let r := nlRun rest
  r != 0 && ((rest.drop r).isEmpty || fourDigits (rest.drop r))

/-- Non-greedy scan for the closing bracket whose tail condition holds;
returns the body between the brackets. -/
def domClose (acc : List Char) : List Char → Option (List Char)
  | [] => none
  | c :: tl =>
    if c = ']' && domTailOK tl then some acc.reverse
    else domClose (c :: acc) tl

/-- First match of the Domain-info regex: the body of the bracketed
section. -/
def domScan : List Char → Option (List Char)
  | [] => none
  | c :: tl =>
    if subAt "Domain info: [".data (c :: tl) then
      match domClose [] ((c :: tl).drop "Domain info: [".length) with
      | some content => some content
      | none => domScan tl
    else domScan tl

/-- The per-guest record built by mappings_local. -/
structure LocalAttr where
  state : JVal
  active : JVal
  type : JVal
deriving DecidableEq

/-- `mappings_local(rhsm_log)`: IndexError when the Domain-info regex
has no match (line 365 indexes `[0]` outside the try block); a failed
`json.loads` is caught and yields the empty dict; each array item is
then subscripted outside the try block, so missing keys raise. -/
def mappings_local (rhsm_log : String) : Except PyErr (List (JVal × LocalAttr)) :=
  match domScan rhsm_log.data with
  | none => .error .indexError
  | some content =>
    let mapping_info := stripNl (String.mk ('[' :: content ++ [']']))
    match jsonLoads mapping_info with
    | none => .ok []
    | some j => do
      let items ← pyIter j
      items.foldlM (fun d item => do
          let gid ← jGet item "guestId"
          let st ← jGet item "state"
          let attrs ← jGet item "attributes"
          let act ← jGet attrs "active"
          let ty ← jGet attrs "virtWhoType"
          pure (alistInsert d gid ⟨st, act, ty⟩)) []

/-! ## mappings_remote (runner.py lines 381-434)

Organisation names come from all captures of
`Host-to-guest mapping being sent to '(.*?)'`.  For every organisation
the code then takes `re.findall(r"(?<=: ){.*?}\n+(?=202|$)", log, re.S)[-1]`
— the last such block in the whole log, regardless of organisation (the
per-organisation `key` built on line 394 is never used) — and indexing
`[-1]` raises IndexError when there is no block at all.  The dict
`org_data` is created once before the loop and reused for every
organisation. -/

/-- Tail condition `\n+(?=202|$)` after the closing brace; returns the
number of newline characters consumed by the match. -/
def blockTailOK (rest : List Char) : Option Nat :=
  let r := nlRun rest
  if r != 0 && ((rest.drop r).isEmpty || subAt "202".data (rest.drop r)) then some r
  else none

/-- Non-greedy scan for the closing brace; returns the body and the
remainder of the input after the consumed newlines. -/
def blockClose (acc : List Char) : List Char → Option (List Char × List Char)
  | [] => none
  | c :: tl =>
    if c = '}' then
      match blockTailOK tl with
      | some r => some (acc.reverse, tl.drop r)
      | none => blockClose (c :: acc) tl
    else blockClose (c :: acc) tl

/-- All non-overlapping matches of the block regex, left to right. -/
def blockScanGo : Nat → List Char → List (List Char)
  | 0, _ => []
  | _, [] => []
  | f + 1, c :: tl =>
    if subAt ": \x7b".data (c :: tl) then
      match blockClose [] ((c :: tl).drop 3) with
      | some (content, rest) => ('{' :: content ++ ['}']) :: blockScanGo f rest
      | none => blockScanGo f tl
    else blockScanGo f tl

/-- All JSON-object blocks of the log, in order. -/
def blockScanAll (l : List Char) : List (List Char) := blockScanGo (l.length + 1) l

/-- The flattened per-guest record of remote mode. -/
structure RGuest where
  guest_hypervisor : JVal
  state : JVal
  active : JVal
  type : JVal
deriving DecidableEq

/-- The per-hypervisor facts record of remote mode. -/
structure HypFacts where
  name : JVal
  type : JVal
  version : JVal
  socket : JVal
  dmi : JVal
  cluster : JVal
  guests : List JVal
deriving DecidableEq

/-- A value of the heterogeneous `org_data` dict. -/
inductive OrgVal where
  | hnum (n : Nat)
  | guest (g : RGuest)
  | hyp (h : HypFacts)
deriving DecidableEq

/-- The `org_data` dict: keys are guest ids, hypervisor ids, and the
string "hypervisor_num". -/
abbrev OrgData := List (JVal × OrgVal)

/-- The remote-mode result dict: the "orgs" entry plus one entry per
organisation name. -/
structure RemoteMap where
  orgs : List String
  perOrg : List (String × OrgData)
deriving DecidableEq

/-- Process one hypervisor item of the parsed block (runner.py lines
405-432), threading the shared `org_data` dict. -/
def remoteItem (od : OrgData) (item : JVal) : Except PyErr OrgData := do
  let hidOuter ← jGet item "hypervisorId"
  let hid ← jGet hidOuter "hypervisorId"
  let hypervisor_name ← if jHas item "name" then jGet item "name" else pure (JVal.str "")
  let facts ← jGet item "facts"
  let fty ← jGet facts "hypervisor.type"
  let fver ← jGet facts "hypervisor.version"
  let fsock ← jGet facts "cpu.cpu_socket(s)"
  let fdmi ← jGet facts "dmi.system.uuid"
  let fclu ← if jHas facts "hypervisor.cluster" then jGet facts "hypervisor.cluster"
             else pure (JVal.str "")
  let gv ← jGet item "guestIds"
  let gitems ← pyIter gv
  let acc ← gitems.foldlM (fun (acc : List JVal × OrgData) guest => do
      let gid ← jGet guest "guestId"
      let gst ← jGet guest "state"
      let gattrs ← jGet guest "attributes"
      let gact ← jGet gattrs "active"
      let gty ← jGet gattrs "virtWhoType"
      pure (gid :: acc.1, alistInsert acc.2 gid (OrgVal.guest ⟨hid, gst, gact, gty⟩)))
    (([] : List JVal), od)
  pure (alistInsert acc.2 hid
    (OrgVal.hyp ⟨hypervisor_name, fty, fver, fsock, fdmi, fclu, acc.1.reverse⟩))

/-- The per-organisation loop of mappings_remote.  A json.loads failure
is caught and returns the data collected so far; every organisation
reads `blocks[-1]`, the last block of the whole log. -/
def remoteGo (blocks : List (List Char)) (org_data : OrgData)
    (perOrg : List (String × OrgData)) :
    List String → Except PyErr (List (String × OrgData))
  | [] => .ok perOrg
  | org :: rest =>
    match blocks.getLast? with
    | none => .error .indexError
    | some b =>
      match jsonLoads (stripNl (String.mk b)) with
      | none => .ok perOrg
      | some mapping_info =>
        match jGet mapping_info "hypervisors" with
        | .error e => .error e
        | .ok hyps =>
          match pyLen hyps with
          | .error e => .error e
          | .ok n =>
            let od0 := alistInsert org_data (JVal.str "hypervisor_num") (OrgVal.hnum n)
            match pyIter hyps with
            | .error e => .error e
            | .ok items =>
              match items.foldlM remoteItem od0 with
              | .error e => .error e
              | .ok od => remoteGo blocks od (alistInsert perOrg org od) rest

/-- `mappings_remote(rhsm_log)`. -/
def mappings_remote (rhsm_log : String) : Except PyErr RemoteMap :=
  let orgs := (captureAll ("Host-to-guest mapping being sent to " ++ sqs).data [sq]
    rhsm_log.data).map String.mk
  if orgs.isEmpty then .ok ⟨[], []⟩
  else
    match remoteGo (blockScanAll rhsm_log.data) [] [] orgs with
    | .ok perOrg => .ok ⟨orgs, perOrg⟩
    | .error e => .error e

/-- The mappings field: one of the two dict shapes (runner.py lines
344-354). -/
inductive MapData where
  | loc (d : List (JVal × LocalAttr))
  | rem (r : RemoteMap)
deriving DecidableEq

/-- `mappings(rhsm_log)`: dispatch on the mode. -/
def mappings (ctx : Ctx) (rhsm_log : String) : Except PyErr MapData :=
  if ctx.mode = .loc then (mappings_local rhsm_log).map .loc
  else (mappings_remote rhsm_log).map .rem

/-- The organisation loop of hypervisor_id (runner.py lines 443-446):
look the configured guest uuid up in each organisation dict; on a hit,
subscript the entry with "guest_hypervisor". -/
def hvGoOrgs (guest_uuid : String) (r : RemoteMap) :
    List String → Except PyErr JVal
  | [] => .ok (.str "")
  | org :: rest =>
    match r.perOrg.lookup org with
    | none => .error (.keyError org)
    | some od =>
      match od.lookup (JVal.str guest_uuid) with
      | some (OrgVal.guest g) => .ok g.guest_hypervisor
      | some (OrgVal.hyp _) => .error (.keyError "guest_hypervisor")
      | some (OrgVal.hnum _) => .error .typeError
      | none => hvGoOrgs guest_uuid r rest

/-- `hypervisor_id(mapping)` (runner.py lines 436-447): the empty string
for a falsy mapping; otherwise subscripts `mapping['orgs']`, which for a
non-empty local-mode dict raises KeyError. -/
def hypervisor_id (ctx : Ctx) (m : MapData) : Except PyErr JVal :=
  match m with
  | .loc d => if d.isEmpty then .ok (.str "") else .error (.keyError "orgs")
  | .rem r => if r.orgs.isEmpty then .ok (.str "") else hvGoOrgs ctx.guest_uuid r r.orgs

/-! ## Remote state

Several analyzer fields are not derived from the `rhsm_log` argument:
they run fresh remote commands.  The observable remote state at
analysis time is therefore part of the model: the current contents of
/var/log/rhsm/rhsm.log (re-read by the greps of error_warning,
loop_number and loop_info), the `ps -ef` process listing (thread_number),
and the exit code and contents of `cat /root/print.json` (print_json). -/

structure RemoteState where
  logFile : String
  psLines : List String
  printRet : Nat
  printOut : String
deriving DecidableEq

/-- `thread_number()` (runner.py lines 460-470):
`ps -ef | grep virt-who -i | grep -v grep | wc -l`. -/
def thread_number (st : RemoteState) : Nat :=
  (st.psLines.filter
    (fun l => containsSubCI "virt-who" l && !containsSubCS "grep" l)).length

/-- `print_json()` (runner.py lines 449-458): the file contents when
`cat` succeeds and the output is non-empty, else None. -/
def print_json (st : RemoteState) : Option String :=
  if st.printRet = 0 && st.printOut != "" then some st.printOut else none

/-- Python str.upper() on ASCII log text. -/
def pyUpper (s : String) : String := String.mk (s.data.map Char.toUpper)

/-- Byte-order comparison of character lists (the collation of `sort`
under the C locale). -/
def charListLE : List Char → List Char → Bool
  | [], _ => true
  | _ :: _, [] => false
  | a :: as, b :: bs =>
    if a.toNat < b.toNat then true
    else if b.toNat < a.toNat then false
    else charListLE as bs

/-- Insert into a sorted list of strings. -/
def insertLE (x : String) : List String → List String
  | [] => [x]
  | y :: ys => if charListLE x.data y.data then x :: y :: ys else y :: insertLE x ys

/-- Insertion sort of strings (model of `| sort`). -/
def sortStrs (l : List String) : List String := l.foldr insertLE []

/-- `error_warning(msg)` (runner.py lines 229-241):
`grep '\[.*MSG.*\]' rhsm.log | sort` — note: no -i, the grep is
case-sensitive — then the line count of the stripped output when the
output is non-empty. -/
def error_warning (st : RemoteState) (msg : String) : Nat × String :=
  let matching := (splitLines st.logFile).filter
    (fun l => lineHasSeqCS ["[", pyUpper msg, "]"] l)
  let output := joinNl (sortStrs matching)
  let n := if output = "" then 0 else (splitNlGo [] (stripChars output.data)).length
  (n, output)

/-! ## loop_number and loop_info (runner.py lines 302-342) -/

/-- Does `\d{2}:\d{2}:\d{2}` match at the head?  Returns hours, minutes,
seconds. -/
def tsAt : List Char → Option (Nat × Nat × Nat)
  | h1 :: h2 :: c1 :: m1 :: m2 :: c2 :: s1 :: s2 :: _ =>
    if h1.isDigit && h2.isDigit && c1 = ':' && m1.isDigit && m2.isDigit
        && c2 = ':' && s1.isDigit && s2.isDigit then
      some ((h1.toNat - 48) * 10 + (h2.toNat - 48),
            (m1.toNat - 48) * 10 + (m2.toNat - 48),
            (s1.toNat - 48) * 10 + (s2.toNat - 48))
    else none
  | _ => none

/-- First match of the timestamp regex in a line;
`re.findall(...)[0]` raises IndexError when there is none. -/
def firstTs : List Char → Option (Nat × Nat × Nat)
  | [] => none
  | c :: tl =>
    match tsAt (c :: tl) with
    | some t => some t
    | none => firstTs tl

/-- Seconds since midnight. -/
def tsSecs (t : Nat × Nat × Nat) : Int := (t.1 * 3600 + t.2.1 * 60 + t.2.2 : Nat)

/-- The first line of the log file containing both `Report for config`
and `placing in datastore` ("" when there is none):
`grep 'Report for config' rhsm.log | grep 'placing in datastore' | head -1`. -/
def loopHeadLine (st : RemoteState) : String :=
  (((splitLines st.logFile).filter
    (fun l => containsSubCS "Report for config" l
      && containsSubCS "placing in datastore" l)).head?).getD ""

/-- The lines of the log file containing `key`: `grep '<key>' rhsm.log`. -/
def keyLines (st : RemoteState) (key : String) : List String :=
  (splitLines st.logFile).filter (fun l => containsSubCS key l)

/-- `loop_number()` (runner.py lines 324-342): the first line of the log
file containing both `Report for config` and `placing in datastore`
names the config; the count is the number of lines containing the
reconstructed exact phrase (`grep ... | wc -l` counts lines), minus
one.  No such line, or no quoted name, yields key "" and count 0. -/
def loop_number (st : RemoteState) : String × Int :=
  match captureScan ("Report for config " ++ dqs).data [dq] (loopHeadLine st).data with
  | some k =>
    if loopHeadLine st = "" then ("", 0)
    else
      let key := "Report for config " ++ dqs ++ String.mk k ++ dqs
        ++ " gathered, placing in datastore"
      (key, ((keyLines st key).length : Int) - 1)
  | none => ("", 0)

/-- `loop_info()` (runner.py lines 302-322): when the loop count is
non-zero, grep the first two key lines and subtract their first
HH:MM:SS timestamps; `[0]`/`[1]` subscripts raise IndexError when
fewer than two lines match or a matched line has no timestamp. -/
def loop_info (st : RemoteState) : Except PyErr (Int × Int) :=
  let kn := loop_number st
  if kn.2 ≠ 0 then
    let matching := (keyLines st kn.1).take 2
    let parts := if matching.isEmpty then [""] else matching
    match parts with
    | [] => .error .indexError
    | p0 :: rest => do
      let t1 ← match firstTs p0.data with
        | some t => Except.ok t
        | none => Except.error PyErr.indexError
      let p1 ← match rest.head? with
        | some x => Except.ok x
        | none => Except.error PyErr.indexError
      let t2 ← match firstTs p1.data with
        | some t => Except.ok t
        | none => Except.error PyErr.indexError
      .ok (tsSecs t2 - tsSecs t1, kn.2)
  else .ok (-1, kn.2)

/-! ## analyzer (runner.py lines 80-120) -/

/-- The analyzer result dict. -/
structure Analysis where
  debug : Bool
  oneshot : Bool
  terminate : Bool
  thread : Nat
  send : Nat
  reporter_id : Option String
  interval : Option Int
  loop : Int
  loop_num : Int
  mappings : MapData
  hypervisor_id : JVal
  print_json : Option String
  error : Nat
  error_msg : String
  warning : Nat
  warning_msg : String
deriving DecidableEq

/-- `analyzer(rhsm_log)`: build the result dict field by field, in
source order; the first uncaught Python exception (interval_time,
loop_info, mappings, hypervisor_id can raise) aborts the whole
analysis. -/
def analyzer (ctx : Ctx) (rhsm_log : String) (st : RemoteState) :
    Except PyErr Analysis :=
  match interval_time rhsm_log with
  | .error e => .error e
  | .ok itv =>
    match loop_info st with
    | .error e => .error e
    | .ok li =>
      match mappings ctx rhsm_log with
      | .error e => .error e
      | .ok mp =>
        match hypervisor_id ctx mp with
        | .error e => .error e
        | .ok hid =>
          let ew := error_warning st "error"
          let ww := error_warning st "warning"
          .ok ⟨msg_search rhsm_log patDebug, msg_search rhsm_log patOneshot,
               msg_search rhsm_log patTerminate, thread_number st,
               send_number ctx rhsm_log, reporter_id rhsm_log, itv, li.1, li.2,
               mp, hid, print_json st, ew.1, ew.2, ww.1, ww.2⟩

/-! ## rhsm_log_get — the polling loop (runner.py lines 192-219)

Each iteration sleeps 15 seconds, re-reads the remote log and samples
the remote state; the observations per iteration are passed in as a
function of the iteration index. -/

/-- One iteration's observations: the freshly read log contents and the
remote state sampled by the thread_number call. -/
structure PollStep where
  log : String
  st : RemoteState
deriving DecidableEq

/-- Why the poll exited. -/
inductive ExitReason where
  | rateLimit | threadZero | errorFound | sendOk | timeout
deriving DecidableEq

/-- The in-order exit conditions of one polling iteration (runner.py
lines 204-215). -/
def exitCheck (ctx : Ctx) (p : PollStep) : Option ExitReason :=
  if msg_search p.log pat429 then some .rateLimit
  else if thread_number p.st = 0 then some .threadZero
  else if msg_search p.log patErrTag then some .errorFound
  else if send_number ctx p.log > 0 then some .sendOk
  else none

/-- The observable outcome of one polling cycle: iterations performed,
exit reason, the log text returned, and the total seconds slept. -/
structure PollOut where
  iters : Nat
  reason : ExitReason
  log : String
  slept : Nat
deriving DecidableEq

/-- The `for i in range(30)` loop body; `fuel` counts the remaining
iterations after the current one (`fuel = 0` is the `i == 29` timeout
break). -/
def pollGo (ctx : Ctx) (obs : Nat → PollStep) : Nat → Nat → Nat → PollOut
  | i, slept, fuel + 1 =>
    let slept2 := slept + 15
    let p := obs i
    match exitCheck ctx p with
    | some r => ⟨i + 1, r, p.log, slept2⟩
    | none =>
      if fuel = 0 then ⟨i + 1, .timeout, p.log, slept2⟩
      else pollGo ctx obs (i + 1) slept2 fuel
  | i, slept, 0 => ⟨i, .timeout, "", slept⟩

/-- `rhsm_log_get(wait)`: optional pre-poll sleep, then up to 30
iterations 15 seconds apart. -/
def rhsm_log_get (ctx : Ctx) (wait : Option Nat) (obs : Nat → PollStep) : PollOut :=
  pollGo ctx obs 0 (wait.getD 0) 30

/-! ## run_start — the retry loop (runner.py lines 122-150)

Each attempt launches virt-who and polls; the text captured by attempt
`i` and the remote state at its analysis are passed in as a function of
`i`.  The returned list records the `time.sleep` calls made between
attempts, in order. -/

/-- Failures run_start can surface: retry exhaustion
(`FailException("Failed to run virt-who service.")`) or an uncaught
Python exception propagated out of the analyzer. -/
inductive RunErr where
  | runExhausted
  | py (e : PyErr)
deriving DecidableEq

/-- The `for i in range(4)` loop: a 429 marker waits 60*(i+3) seconds
and retries, a status-500 marker waits 60 seconds and retries, anything
else is analyzed and returned. -/
def runGo (ctx : Ctx) (att : Nat → String × RemoteState) :
    Nat → Nat → List Nat × Except RunErr Analysis
  | _, 0 => ([], .error .runExhausted)
  | i, f + 1 =>
    let out := (att i).1
    if msg_search out pat429 then
      let r := runGo ctx att (i + 1) f
      (60 * (i + 3) :: r.1, r.2)
    else if msg_search out pat500 then
      let r := runGo ctx att (i + 1) f
      (60 :: r.1, r.2)
    else
      ([], (analyzer ctx out (att i).2).mapError RunErr.py)

/-- `run_start(cli, wait)` with the per-attempt observations abstracted. -/
def run_start (ctx : Ctx) (att : Nat → String × RemoteState) :
    List Nat × Except RunErr Analysis :=
  runGo ctx att 0 4

/-! ## run_cli — command construction (runner.py lines 29-67) -/

/-- The per-mode config file path (runner.py line 24). -/
def config_file (mode : Mode) : String := "/etc/virt-who.d/" ++ modeStr mode ++ ".conf"

/-- The print-output file path (runner.py line 26). -/
def print_json_file : String := "/root/print.json"

/-- The options of run_cli.  `config` is a file path, the literal
"default", or "" (Python None and "" are both falsy for the `-c`
branch); a Python `interval=0` is falsy for the `-i` branch. -/
structure CliOpts where
  debug : Bool
  oneshot : Bool
  interval : Option Nat
  prt : Bool
  config : String
deriving DecidableEq

/-- The command string built by run_cli before it is passed to
run_start. -/
def run_cli_cmd (mode : Mode) (o : CliOpts) : String :=
  let cmd := "virt-who "
  let cmd := if o.debug then cmd ++ "-d " else cmd
  let cmd := if o.oneshot then cmd ++ "-o " else cmd
  let cmd := match o.interval with
    | some n => if n ≠ 0 then cmd ++ "-i " ++ toString n ++ " " else cmd
    | none => cmd
  let cmd := if o.prt then cmd ++ "-p " else cmd
  let cmd :=
    if o.config ≠ "" then
      cmd ++ "-c " ++ (if o.config = "default" then config_file mode else o.config) ++ " "
    else cmd
  if o.prt then cmd ++ " > " ++ print_json_file else cmd

/-! ## Specification-side definitions

Independent statements of what the specification asserts, to be
compared with the definitions embedded from the source. -/

/-- The detection pattern as the specification describes it: three
mutually exclusive branches — the zero-guests literal, a backend- and
mode-specific HTTP success pattern behind the debug connection marker,
or the mode-specific sending phrase. -/
def c4Pattern (ctx : Ctx) (rhsm_log : String) : Pat :=
  if containsSubCS "0 hypervisors and 0 guests found" rhsm_log then
    patZeroFound
  else if containsSubCS "virtwho.main DEBUG" rhsm_log
      || containsSubCS "rhsm.connection DEBUG" rhsm_log then
    match ctx.register_type with
    | .satellite => if ctx.mode = .loc then patSatLocal else patSatRemote
    | .rhsm => if ctx.mode = .loc then patRhsmLocal else patRhsmRemote
  else
    if ctx.mode = .loc then patSendLocal else patSendRemote

/-- The first iteration index at or after `i`, within the next `f`
iterations, whose in-order exit conditions fire, with the reason. -/
def firstFrom (ctx : Ctx) (obs : Nat → PollStep) : Nat → Nat → Option (Nat × ExitReason)
  | _, 0 => none
  | i, f + 1 =>
    match exitCheck ctx (obs i) with
    | some r => some (i, r)
    | none => firstFrom ctx obs (i + 1) f

/-- The polling outcome as the specification describes it: exit at the
first iteration whose condition fires, or time out after the 30th. -/
def c2Spec (ctx : Ctx) (wait : Option Nat) (obs : Nat → PollStep) : PollOut :=
  match firstFrom ctx obs 0 30 with
  | some (j, r) => ⟨j + 1, r, (obs j).log, wait.getD 0 + 15 * (j + 1)⟩
  | none => ⟨30, .timeout, (obs 29).log, wait.getD 0 + 15 * 30⟩

/-- Does the text captured by attempt `i` carry a retryable marker? -/
def attRetry (att : Nat → String × RemoteState) (i : Nat) : Bool :=
  msg_search (att i).1 pat429 || msg_search (att i).1 pat500

/-- The first attempt index at or after `i`, within the next `f`
attempts, whose captured text carries no retryable marker. -/
def firstOkAtt (att : Nat → String × RemoteState) : Nat → Nat → Option Nat
  | _, 0 => none
  | i, f + 1 => if attRetry att i then firstOkAtt att (i + 1) f else some i

/-- The backoff of attempt `j`: 60*(j+3) seconds after a rate limit,
otherwise (status 500) 60 seconds. -/
def waitF (att : Nat → String × RemoteState) (j : Nat) : Nat :=
  if msg_search (att j).1 pat429 then 60 * (j + 3) else 60

/-- The backoffs taken for attempts `i, i+1, …, i+n-1`. -/
def waitsFrom (att : Nat → String × RemoteState) : Nat → Nat → List Nat
  | _, 0 => []
  | i, n + 1 => waitF att i :: waitsFrom att (i + 1) n

/-- The retry behaviour as the specification describes it: analyze and
return the first attempt without a retryable marker, backing off as
specified in between; fail after 4 attempts. -/
def c3Spec (ctx : Ctx) (att : Nat → String × RemoteState) :
    List Nat × Except RunErr Analysis :=
  match firstOkAtt att 0 4 with
  | some j => (waitsFrom att 0 j, (analyzer ctx (att j).1 (att j).2).mapError RunErr.py)
  | none => (waitsFrom att 0 4, .error .runExhausted)

/-- The command string as the amended specification describes it: one
concatenation of the option pieces in order. -/
def c10Spec (mode : Mode) (o : CliOpts) : String :=
  "virt-who "
  ++ (if o.debug then "-d " else "")
  ++ (if o.oneshot then "-o " else "")
  ++ (match o.interval with
      | some n => if n ≠ 0 then "-i " ++ toString n ++ " " else ""
      | none => "")
  ++ (if o.prt then "-p " else "")
  ++ (if o.config ≠ "" then
        "-c " ++ (if o.config = "default" then config_file mode else o.config) ++ " "
      else "")
  ++ (if o.prt then " > " ++ print_json_file else "")

/-! ## Concrete inputs used by the claims -/

/-- Local-mode context (C1). -/
def c1Ctx : Ctx := ⟨.loc, .rhsm, "guest-uuid"⟩

/-- A remote state whose log file is empty (C1). -/
def c1St : RemoteState := ⟨"", [], 1, ""⟩

/-- Remote-mode context (C7). -/
def c7Ctx : Ctx := ⟨.esx, .rhsm, "guest-uuid"⟩

/-- A log announcing a send to an organisation but containing no JSON
block (C7). -/
def c7Log : String := "Host-to-guest mapping being sent to " ++ sqs ++ "org1" ++ sqs

/-- The JSON block sent to org1: one hypervisor h1, no guests (C5). -/
def c5Json1 : String :=
  ": \x7b\"hypervisors\": [\x7b\"hypervisorId\": \x7b\"hypervisorId\": \"h1\"\x7d, "
  ++ "\"facts\": \x7b\"hypervisor.type\": \"a\", \"hypervisor.version\": \"1\", "
  ++ "\"cpu.cpu_socket(s)\": \"1\", \"dmi.system.uuid\": \"u1\"\x7d, \"guestIds\": []\x7d]\x7d"

/-- The JSON block sent to org2: one hypervisor h2, no guests (C5). -/
def c5Json2 : String :=
  ": \x7b\"hypervisors\": [\x7b\"hypervisorId\": \x7b\"hypervisorId\": \"h2\"\x7d, "
  ++ "\"facts\": \x7b\"hypervisor.type\": \"b\", \"hypervisor.version\": \"2\", "
  ++ "\"cpu.cpu_socket(s)\": \"2\", \"dmi.system.uuid\": \"u2\"\x7d, \"guestIds\": []\x7d]\x7d"

/-- A log in which org1 is sent hypervisor h1 and then org2 is sent
hypervisor h2, each followed by an HTTP 202 line (C5). -/
def c5Log : String :=
  "Host-to-guest mapping being sent to " ++ sqs ++ "org1" ++ sqs ++ c5Json1
  ++ "\n202\nHost-to-guest mapping being sent to " ++ sqs ++ "org2" ++ sqs ++ c5Json2
  ++ "\n202\n"

/-- The facts of hypervisor h2, the last block of c5Log. -/
def c5Facts2 : HypFacts := ⟨.str "", .str "b", .str "2", .str "2", .str "u2", .str "", []⟩

/-- The organisation dict built from the last block of c5Log. -/
def c5Od : OrgData := [(.str "hypervisor_num", .hnum 1), (.str "h2", .hyp c5Facts2)]

/-- The datastore phrase with config name "a" (C6). -/
def c6Phrase : String :=
  "Report for config " ++ dqs ++ "a" ++ dqs ++ " gathered, placing in datastore"

/-- A log file whose single line contains the datastore phrase twice
(C6 counterexample). -/
def c6St : RemoteState := ⟨c6Phrase ++ " " ++ c6Phrase, [], 1, ""⟩

/-- A log file with two timestamped datastore lines 125 seconds apart
(C6 witness). -/
def c6StW : RemoteState := ⟨"01:00:00 " ++ c6Phrase ++ "\n01:02:05 " ++ c6Phrase, [], 1, ""⟩

/-- Context shared by the C8 input states. -/
def c8Ctx : Ctx := ⟨.esx, .rhsm, "guest-uuid"⟩

/-- First remote state for C8: no virt-who process, failing print cat. -/
def c8StA : RemoteState := ⟨"", [], 1, ""⟩

/-- Second remote state for C8: one virt-who process, a print file. -/
def c8StB : RemoteState := ⟨"", ["a virt-who b"], 0, "x"⟩

/-- The analyzer result on the empty log in state c8StA. -/
def c8ResA : Analysis :=
  ⟨false, false, false, 0, 0, none, none, -1, 0, .rem ⟨[], []⟩, .str "", none, 0, "", 0, ""⟩

/-- The analyzer result on the empty log in state c8StB. -/
def c8ResB : Analysis :=
  ⟨false, false, false, 1, 0, none, none, -1, 0, .rem ⟨[], []⟩, .str "", some "x", 0, "", 0, ""⟩

/-- A log file with one lowercase `[error]` line (C9 counterexample). -/
def c9St : RemoteState := ⟨"[error] oops", [], 1, ""⟩

/-- Options with the interval set to 0 (C10 counterexample). -/
def c10CexOpts : CliOpts := ⟨false, false, some 0, false, "x"⟩

/-! # Theorems -/

set_option maxRecDepth 10000

/-! ## General helper lemmas -/

theorem strDataEq {a b : String} (h : a.data = b.data) : a = b := by
  cases a; cases b; exact congrArg String.mk h

theorem dataEmpty : ("" : String).data = [] := rfl

/-! ## Helper lemmas for the polling loop -/

theorem firstFromGe (ctx : Ctx) (obs : Nat → PollStep) :
    ∀ f i j r, firstFrom ctx obs i f = some (j, r) → i ≤ j ∧ j < i + f := by
  intro f
  induction f with
  | zero => intro i j r h; simp [firstFrom] at h
  | succ f ih =>
    intro i j r h
    unfold firstFrom at h
    cases hc : exitCheck ctx (obs i) with
    | some r2 => rw [hc] at h; simp at h; omega
    | none => rw [hc] at h; have h2 := ih (i + 1) j r h; omega

theorem pollGoSpec (ctx : Ctx) (obs : Nat → PollStep) :
    ∀ f i slept, f ≠ 0 →
    pollGo ctx obs i slept f =
      match firstFrom ctx obs i f with
      | some (j, r) => ⟨j + 1, r, (obs j).log, slept + 15 * (j + 1 - i)⟩
      | none => ⟨i + f, .timeout, (obs (i + f - 1)).log, slept + 15 * f⟩ := by
  intro f
  induction f with
  | zero => intro i slept h; exact absurd rfl h
  | succ f ih =>
    intro i slept _
    unfold pollGo firstFrom
    cases hc : exitCheck ctx (obs i) with
    | some r =>
      simp only [hc]
      have h3 : slept + 15 = slept + 15 * (i + 1 - i) := by omega
      rw [h3]
    | none =>
      simp only [hc]
      by_cases hf : f = 0
      · subst hf
        simp [firstFrom]
      · rw [if_neg hf, ih (i + 1) (slept + 15) hf]
        cases hff : firstFrom ctx obs (i + 1) f with
        | some jr =>
          obtain ⟨j, r⟩ := jr
          have hge := firstFromGe ctx obs f (i + 1) j r hff
          have h3 : slept + 15 + 15 * (j + 1 - (i + 1)) = slept + 15 * (j + 1 - i) := by
            omega
          simp only [h3]
        | none =>
          have h1 : i + 1 + f = i + (f + 1) := by omega
          have h3 : slept + 15 + 15 * f = slept + 15 * (f + 1) := by omega
          simp only [h1, h3]

/-! ## Helper lemmas for the retry loop -/

theorem firstOkGe (att : Nat → String × RemoteState) :
    ∀ f i j, firstOkAtt att i f = some j → i ≤ j ∧ j < i + f := by
  intro f
  induction f with
  | zero => intro i j h; simp [firstOkAtt] at h
  | succ f ih =>
    intro i j h
    unfold firstOkAtt at h
    by_cases hr : attRetry att i
    · rw [if_pos hr] at h; have h2 := ih (i + 1) j h; omega
    · rw [if_neg hr] at h; simp at h; omega

theorem waitsFromLen (att : Nat → String × RemoteState) :
    ∀ n i, (waitsFrom att i n).length = n := by
  intro n
  induction n with
  | zero => intro i; rfl
  | succ n ih => intro i; simp [waitsFrom, ih]

theorem runGoSpec (ctx : Ctx) (att : Nat → String × RemoteState) :
    ∀ f i, runGo ctx att i f =
      match firstOkAtt att i f with
      | some j => (waitsFrom att i (j - i), (analyzer ctx (att j).1 (att j).2).mapError RunErr.py)
      | none => (waitsFrom att i f, .error .runExhausted) := by
  intro f
  induction f with
  | zero => intro i; simp [runGo, firstOkAtt, waitsFrom]
  | succ f ih =>
    intro i
    unfold runGo firstOkAtt
    by_cases h429 : msg_search (att i).1 pat429
    · have hr : attRetry att i = true := by simp [attRetry, h429]
      rw [if_pos h429, if_pos hr, ih (i + 1)]
      cases hff : firstOkAtt att (i + 1) f with
      | some j =>
        have hge := firstOkGe att f (i + 1) j hff
        have hji : j - i = (j - (i + 1)) + 1 := by omega
        simp only []
        rw [hji]
        simp only [waitsFrom, waitF, if_pos h429]
      | none =>
        simp only []
        simp only [waitsFrom, waitF, if_pos h429]
    · by_cases h500 : msg_search (att i).1 pat500
      · have hr : attRetry att i = true := by simp [attRetry, h429, h500]
        rw [if_neg h429, if_pos h500, if_pos hr, ih (i + 1)]
        cases hff : firstOkAtt att (i + 1) f with
        | some j =>
          have hge := firstOkGe att f (i + 1) j hff
          have hji : j - i = (j - (i + 1)) + 1 := by omega
          simp only []
          rw [hji]
          simp only [waitsFrom, waitF, if_neg h429]
        | none =>
          simp only []
          simp only [waitsFrom, waitF, if_neg h429]
      · have hr : attRetry att i = false := by simp [attRetry, h429, h500]
        rw [if_neg h429, if_neg h500, if_neg (by simp [hr] : ¬ attRetry att i = true)]
        simp [waitsFrom]

/-! ## Helper lemmas for loop_number and loop_info -/

theorem loopNumCases (st : RemoteState) :
    loop_number st = ("", 0) ∨
    ((loop_number st).1 ≠ "" ∧
     loop_number st = ((loop_number st).1,
       ((keyLines st (loop_number st).1).length : Int) - 1)) := by
  unfold loop_number
  cases hcap : captureScan ("Report for config " ++ dqs).data [dq] (loopHeadLine st).data with
  | none => left; rfl
  | some k =>
    by_cases ho : loopHeadLine st = ""
    · left; simp [ho]
    · right
      simp only [if_neg ho]
      constructor
      · intro h
        have h2 := congrArg String.data h
        simp [String.data_append] at h2
      · trivial

theorem loopInfoZero (st : RemoteState) (h : (loop_number st).2 = 0) :
    loop_info st = .ok (-1, 0) := by
  unfold loop_info
  simp only [h]
  simp

/-! ## Helper lemmas for error_warning: the stripped, newline-joined
output of the grep has exactly one line per matching log line. -/

theorem splitLen : ∀ (l cur : List Char), (splitNlGo cur l).length = l.count '\n' + 1 := by
  intro l
  induction l with
  | nil => intro cur; rfl
  | cons c tl ih =>
    intro cur
    unfold splitNlGo
    by_cases hc : c = '\n'
    · rw [if_pos hc, List.length_cons, ih, List.count_cons]
      simp [hc]
    · rw [if_neg hc, ih, List.count_cons]
      simp [hc]

theorem joinCnt : ∀ (ps : List (List Char)), (∀ p ∈ ps, p.count '\n' = 0) → ps ≠ [] →
    (joinNlL ps).count '\n' + 1 = ps.length := by
  intro ps
  induction ps with
  | nil => intro _ h; exact absurd rfl h
  | cons p tl ih =>
    intro hall _
    cases tl with
    | nil => simp [joinNlL, hall p (by simp)]
    | cons q qs =>
      have hj : joinNlL (p :: q :: qs) = p ++ '\n' :: joinNlL (q :: qs) := rfl
      have h2 := ih (fun x hx => hall x (by simp [hx])) (by simp)
      have hp := hall p (by simp)
      rw [hj, List.count_append, List.count_cons, hp]
      simp only [List.length_cons] at h2 ⊢
      simp only [beq_self_eq_true, if_true]
      omega

theorem dropWhileApp (pr : Char → Bool) :
    ∀ (a b : List Char), a.dropWhile pr ≠ [] →
    (a ++ b).dropWhile pr = a.dropWhile pr ++ b := by
  intro a
  induction a with
  | nil => intro b h; exact absurd rfl h
  | cons c tl ih =>
    intro b h
    by_cases hc : pr c
    · rw [List.cons_append, List.dropWhile_cons_of_pos hc]
      rw [List.dropWhile_cons_of_pos hc] at h ⊢
      exact ih b h
    · rw [List.cons_append, List.dropWhile_cons_of_neg hc, List.dropWhile_cons_of_neg hc]
      rfl

theorem takeWhileApp (pr : Char → Bool) :
    ∀ (a b : List Char), a.dropWhile pr ≠ [] →
    (a ++ b).takeWhile pr = a.takeWhile pr := by
  intro a
  induction a with
  | nil => intro b h; exact absurd rfl h
  | cons c tl ih =>
    intro b h
    by_cases hc : pr c
    · rw [List.cons_append, List.takeWhile_cons_of_pos hc, List.takeWhile_cons_of_pos hc]
      rw [List.dropWhile_cons_of_pos hc] at h
      rw [ih b h]
    · rw [List.cons_append, List.takeWhile_cons_of_neg hc, List.takeWhile_cons_of_neg hc]

theorem nonWsDrop {p : List Char} {c : Char} (hc : c ∈ p) (hw : ¬ isWs c = true) :
    p.dropWhile isWs ≠ [] := by
  intro h
  rw [List.dropWhile_eq_nil_iff] at h
  exact hw (h c hc)

theorem memDropWhile {p : List Char} {c : Char} (hc : c ∈ p) (hw : ¬ isWs c = true) :
    c ∈ p.dropWhile isWs := by
  have hsplit := List.takeWhile_append_dropWhile (p := isWs) (l := p)
  rw [← hsplit] at hc
  rcases List.mem_append.mp hc with h | h
  · exact absurd (List.mem_takeWhile_imp h) hw
  · exact h

theorem cntDropWs (y : List Char) (h : (y.takeWhile isWs).count '\n' = 0) :
    (y.dropWhile isWs).count '\n' = y.count '\n' := by
  conv_rhs => rw [← List.takeWhile_append_dropWhile (p := isWs) (l := y)]
  rw [List.count_append, h, Nat.zero_add]

theorem cntSub {a b : List Char} (h : a.Sublist b) (hb : b.count '\n' = 0) :
    a.count '\n' = 0 := by
  have h2 := h.count_le '\n'
  omega

theorem joinFirstDrop (p : List Char) (ps : List (List Char))
    (h : p.dropWhile isWs ≠ []) :
    (joinNlL (p :: ps)).dropWhile isWs = joinNlL (p.dropWhile isWs :: ps) := by
  cases ps with
  | nil => rfl
  | cons q qs =>
    have hj : joinNlL (p :: q :: qs) = p ++ '\n' :: joinNlL (q :: qs) := rfl
    have hj2 : joinNlL (p.dropWhile isWs :: q :: qs)
        = p.dropWhile isWs ++ '\n' :: joinNlL (q :: qs) := rfl
    rw [hj, hj2, dropWhileApp isWs p _ h]

theorem joinSnoc : ∀ (ps : List (List Char)) (p : List Char), ps ≠ [] →
    joinNlL (ps ++ [p]) = joinNlL ps ++ '\n' :: p := by
  intro ps
  induction ps with
  | nil => intro p h; exact absurd rfl h
  | cons q qs ih =>
    intro p _
    cases qs with
    | nil => rfl
    | cons r rs =>
      have h1 : joinNlL ((q :: r :: rs) ++ [p]) = q ++ '\n' :: joinNlL ((r :: rs) ++ [p]) := rfl
      have h2 : joinNlL (q :: r :: rs) = q ++ '\n' :: joinNlL (r :: rs) := rfl
      rw [h1, h2, ih p (by simp)]
      simp

theorem stripJoinCount (ps : List (List Char))
    (hnl : ∀ p ∈ ps, p.count '\n' = 0)
    (hbr : ∀ p ∈ ps, '[' ∈ p)
    (hne : ps ≠ []) :
    (stripChars (joinNlL ps)).count '\n' + 1 = ps.length := by
  obtain ⟨p0, tl, rfl⟩ : ∃ p0 tl, ps = p0 :: tl := by
    cases ps with
    | nil => exact absurd rfl hne
    | cons a b => exact ⟨a, b, rfl⟩
  have hw : ¬ isWs '[' = true := by decide
  have hp0br : '[' ∈ p0 := hbr p0 (by simp)
  have hp0nl : p0.count '\n' = 0 := hnl p0 (by simp)
  have hd0 : p0.dropWhile isWs ≠ [] := nonWsDrop hp0br hw
  have hxtw : (joinNlL (p0 :: tl)).takeWhile isWs = p0.takeWhile isWs := by
    cases tl with
    | nil => rfl
    | cons q qs =>
      have hj : joinNlL (p0 :: q :: qs) = p0 ++ '\n' :: joinNlL (q :: qs) := rfl
      rw [hj, takeWhileApp isWs p0 _ hd0]
  have hcnt0 : ((joinNlL (p0 :: tl)).takeWhile isWs).count '\n' = 0 := by
    rw [hxtw]
    exact cntSub (List.takeWhile_sublist _) hp0nl
  have cntA : ((joinNlL (p0 :: tl)).dropWhile isWs).count '\n'
      = (joinNlL (p0 :: tl)).count '\n' := cntDropWs _ hcnt0
  have hy : (joinNlL (p0 :: tl)).dropWhile isWs = joinNlL (p0.dropWhile isWs :: tl) :=
    joinFirstDrop p0 tl hd0
  have hnl1 : ∀ p ∈ (p0.dropWhile isWs :: tl), p.count '\n' = 0 := by
    intro p hp
    rcases List.mem_cons.mp hp with h | h
    · subst h; exact cntSub (List.dropWhile_sublist _) hp0nl
    · exact hnl p (by simp [h])
  have hbr1 : ∀ p ∈ (p0.dropWhile isWs :: tl), '[' ∈ p := by
    intro p hp
    rcases List.mem_cons.mp hp with h | h
    · subst h; exact memDropWhile hp0br hw
    · exact hbr p (by simp [h])
  rcases List.eq_nil_or_concat (p0.dropWhile isWs :: tl) with hnil | ⟨as, a, hcat⟩
  · simp at hnil
  rw [List.concat_eq_append] at hcat
  have hamem : a ∈ (p0.dropWhile isWs :: tl) := by rw [hcat]; simp
  have hanl : a.count '\n' = 0 := hnl1 a hamem
  have habr : '[' ∈ a := hbr1 a hamem
  have hytw : (((joinNlL (p0.dropWhile isWs :: tl)).reverse).takeWhile isWs).count '\n' = 0 := by
    cases as with
    | nil =>
      simp only [List.nil_append] at hcat
      rw [hcat]
      have hj : joinNlL [a] = a := rfl
      rw [hj]
      refine cntSub (List.takeWhile_sublist _) ?_
      rw [List.count_reverse]
      exact hanl
    | cons b bs =>
      rw [hcat, joinSnoc _ a (by simp)]
      rw [List.reverse_append, List.reverse_cons]
      have har : a.reverse.dropWhile isWs ≠ [] :=
        nonWsDrop (List.mem_reverse.mpr habr) hw
      rw [List.append_assoc, takeWhileApp isWs a.reverse _ har]
      refine cntSub (List.takeWhile_sublist _) ?_
      rw [List.count_reverse]
      exact hanl
  have cntB : (((joinNlL (p0.dropWhile isWs :: tl)).reverse).dropWhile isWs).count '\n'
      = (joinNlL (p0.dropWhile isWs :: tl)).count '\n' := by
    rw [cntDropWs _ hytw, List.count_reverse]
  have hjoin : (joinNlL (p0.dropWhile isWs :: tl)).count '\n' + 1
      = (p0.dropWhile isWs :: tl).length :=
    joinCnt _ hnl1 (by simp)
  have hstrip : stripChars (joinNlL (p0 :: tl))
      = (((joinNlL (p0 :: tl)).dropWhile isWs).reverse.dropWhile isWs).reverse := rfl
  rw [hstrip, List.count_reverse, hy, cntB]
  simp only [List.length_cons] at hjoin ⊢
  omega

theorem memInsertLE (x a : String) : ∀ l, x ∈ insertLE a l → x = a ∨ x ∈ l := by
  intro l
  induction l with
  | nil => intro h; simp [insertLE] at h; exact Or.inl h
  | cons y ys ih =>
    intro h
    unfold insertLE at h
    by_cases hc : charListLE a.data y.data
    · rw [if_pos hc] at h
      rcases List.mem_cons.mp h with h2 | h2
      · exact Or.inl h2
      · exact Or.inr h2
    · rw [if_neg hc] at h
      rcases List.mem_cons.mp h with h2 | h2
      · exact Or.inr (by simp [h2])
      · rcases ih h2 with h3 | h3
        · exact Or.inl h3
        · exact Or.inr (by simp [h3])

theorem memSortStrs (x : String) : ∀ l, x ∈ sortStrs l → x ∈ l := by
  intro l
  induction l with
  | nil => intro h; simp [sortStrs] at h
  | cons y ys ih =>
    intro h
    have h2 : x ∈ insertLE y (sortStrs ys) := h
    rcases memInsertLE x y _ h2 with h3 | h3
    · simp [h3]
    · exact List.mem_cons.mpr (Or.inr (ih h3))

theorem insertLELen (a : String) : ∀ l, (insertLE a l).length = l.length + 1 := by
  intro l
  induction l with
  | nil => rfl
  | cons y ys ih =>
    unfold insertLE
    by_cases hc : charListLE a.data y.data
    · rw [if_pos hc]; rfl
    · rw [if_neg hc]; simp [ih]

theorem sortStrsLen : ∀ l : List String, (sortStrs l).length = l.length := by
  intro l
  induction l with
  | nil => rfl
  | cons y ys ih =>
    have h : sortStrs (y :: ys) = insertLE y (sortStrs ys) := rfl
    rw [h, insertLELen, ih]
    rfl

theorem splitNoNl : ∀ (l cur : List Char), '\n' ∉ cur →
    ∀ p ∈ splitNlGo cur l, '\n' ∉ p := by
  intro l
  induction l with
  | nil =>
    intro cur hcur p hp
    simp only [splitNlGo, List.mem_singleton] at hp
    subst hp
    simpa using hcur
  | cons c tl ih =>
    intro cur hcur p hp
    unfold splitNlGo at hp
    by_cases hc : c = '\n'
    · rw [if_pos hc] at hp
      rcases List.mem_cons.mp hp with h | h
      · subst h; simpa using hcur
      · exact ih [] (by simp) p h
    · rw [if_neg hc] at hp
      refine ih (c :: cur) ?_ p hp
      intro hmem
      rcases List.mem_cons.mp hmem with h | h
      · exact hc h.symm
      · exact hcur h

theorem splitLinesNoNl (s : String) (m : String) (hm : m ∈ splitLines s) :
    '\n' ∉ m.data := by
  unfold splitLines at hm
  rcases List.mem_map.mp hm with ⟨p, hp, hpm⟩
  subst hpm
  exact splitNoNl s.data [] (by simp) p hp

theorem findSubAt : ∀ (l pat : List Char) (i : Nat),
    findSub pat l = some i → subAt pat (l.drop i) = true := by
  intro l
  induction l with
  | nil =>
    intro pat i h
    unfold findSub at h
    by_cases hp : pat.isEmpty
    · rw [if_pos hp] at h
      injection h with h2
      subst h2
      cases pat with
      | nil => rfl
      | cons a as => simp [List.isEmpty] at hp
    · rw [if_neg hp] at h; cases h
  | cons c tl ih =>
    intro pat i h
    unfold findSub at h
    by_cases hs : subAt pat (c :: tl) = true
    · rw [if_pos hs] at h
      injection h with h2
      subst h2
      simpa using hs
    · rw [if_neg hs] at h
      cases hf : findSub pat tl with
      | none => rw [hf] at h; cases h
      | some j =>
        rw [hf] at h
        simp at h
        subst h
        simpa using ih pat j hf

theorem subAtHeadMem : ∀ (l : List Char) (c : Char) (cs : List Char),
    subAt (c :: cs) l = true → c ∈ l := by
  intro l c cs h
  cases l with
  | nil => cases h
  | cons b bs =>
    unfold subAt at h
    have h2 := (Bool.and_eq_true _ _).mp h
    have h3 : c = b := eq_of_beq h2.1
    subst h3
    simp

theorem lineBracketMem (parts : List String) (line : String)
    (h : lineHasSeqCS ("[" :: parts) line = true) : '[' ∈ line.data := by
  unfold lineHasSeqCS lineSeqAt at h
  simp only [List.map_cons] at h
  cases hf : findSub "[".data line.data with
  | none => rw [hf] at h; cases h
  | some i =>
    have hsub := findSubAt line.data "[".data i hf
    have hget : '[' ∈ line.data.drop i := subAtHeadMem _ '[' [] hsub
    exact (List.drop_sublist i line.data).mem hget

theorem joinNeNil (p : List Char) (tl : List (List Char)) (hp : '[' ∈ p) :
    joinNlL (p :: tl) ≠ [] := by
  cases tl with
  | nil =>
    intro h
    have hj : joinNlL [p] = p := rfl
    rw [hj] at h
    subst h
    cases hp
  | cons q qs =>
    intro h
    have hj : joinNlL (p :: q :: qs) = p ++ '\n' :: joinNlL (q :: qs) := rfl
    rw [hj] at h
    rcases List.append_eq_nil.mp h with ⟨_, h2⟩
    cases h2

/-! ## Claim theorems -/

/-- C1: the claim says the analyze operation never raises — malformed or
absent data always degrades to a field default.  The code violates
this: in local mode with no `Domain info:` block in the log, the
unguarded `rex.findall(rhsm_log)[0]` at runner.py line 365 raises
IndexError, which propagates out of `analyzer`.  This theorem evaluates
the embedded analyzer at that failing input: local mode, empty log. -/
theorem claim_C1 : analyzer c1Ctx "" c1St = .error .indexError := by decide

/-- C2: one polling cycle performs at most 30 fetch iterations, 15
seconds apart (after an optional pre-poll delay), and always
terminates; within an iteration the exit conditions are checked in the
order rate-limit-429, thread-count-zero, ERROR-tagged-line, send-count
positive, the first to hold ending the poll; if none ever holds the
poll exits as a timeout after the 30th iteration.  Stated as: the poll
result equals the first-exit specification c2Spec, and the iteration
count is bounded by 30. -/
theorem claim_C2 (ctx : Ctx) (wait : Option Nat) (obs : Nat → PollStep) :
    (rhsm_log_get ctx wait obs).iters ≤ 30 ∧
    rhsm_log_get ctx wait obs = c2Spec ctx wait obs := by
  have h := pollGoSpec ctx obs 30 0 (wait.getD 0) (by omega)
  have heq : rhsm_log_get ctx wait obs = c2Spec ctx wait obs := by
    rw [rhsm_log_get, h, c2Spec]
    cases hf : firstFrom ctx obs 0 30 with
    | some jr => obtain ⟨j, r⟩ := jr; simp
    | none => simp
  refine ⟨?_, heq⟩
  rw [heq, c2Spec]
  cases hf : firstFrom ctx obs 0 30 with
  | some jr =>
    obtain ⟨j, r⟩ := jr
    have hge := firstFromGe ctx obs 30 0 j r hf
    simp only
    omega
  | none => simp only; omega

/-- C3: the run loop makes at most 4 launch attempts; an attempt whose
captured text carries the 429 marker backs off 60*(i+3) seconds (180 on
the first attempt), one matching the status-500 marker backs off a
fixed 60 seconds, and any other attempt is analyzed and returned; 4
retried attempts exhaust the loop with the run-exhausted failure.
Stated as: run_start equals the specification c3Spec and performs at
most 4 backoffs. -/
theorem claim_C3 (ctx : Ctx) (att : Nat → String × RemoteState) :
    run_start ctx att = c3Spec ctx att ∧ (run_start ctx att).1.length ≤ 4 := by
  have h := runGoSpec ctx att 4 0
  have heq : run_start ctx att = c3Spec ctx att := by
    rw [run_start, h, c3Spec]
    cases hf : firstOkAtt att 0 4 with
    | some j => simp
    | none => simp
  refine ⟨heq, ?_⟩
  rw [heq, c3Spec]
  cases hf : firstOkAtt att 0 4 with
  | some j =>
    have hge := firstOkGe att 4 0 j hf
    simp only [waitsFromLen]
    omega
  | none => simp only [waitsFromLen]; omega

/-- C4: send-count is computed by exactly one of three mutually
exclusive branches — the literal zero-guests message, a debug
connection-log marker selecting a backend- and mode-specific HTTP
success pattern, or the mode-specific sending phrase — and equals the
number of non-overlapping case-insensitive matches of the selected
pattern. -/
theorem claim_C4 (ctx : Ctx) (rhsm_log : String) :
    send_number ctx rhsm_log = countPatCI (c4Pattern ctx rhsm_log) rhsm_log := rfl

/-- C5: the claim says each organisation's recorded mapping data comes
from the last JSON block sent to that specific organisation.  The code
violates it: the per-organisation `key` computed on runner.py line 394
is never used, and every organisation receives the globally last block
of the log.  On c5Log — where org1 is sent hypervisor h1 and org2 is
sent hypervisor h2 — both organisations end up with h2's block, and
org1's dict has no entry for h1. -/
theorem claim_C5 :
    mappings_remote c5Log = .ok ⟨["org1", "org2"], [("org1", c5Od), ("org2", c5Od)]⟩ ∧
    (c5Od.lookup (JVal.str "h1")) = none ∧
    (c5Od.lookup (JVal.str "h2")) = some (OrgVal.hyp c5Facts2) := by decide

/-- C6 counterexample: the claim says loop-count equals the number of
occurrences of the located datastore phrase minus one.  On a log file
whose single line contains the phrase twice, the code counts matching
lines (`grep | wc -l`), giving loop-count 0, while the phrase occurs
twice (occurrences minus one would be 1). -/
theorem claim_C6_counterexample :
    (loop_number c6St).2 = 0 ∧
    countSubCS (loop_number c6St).1 c6St.logFile = 2 ∧
    (loop_number c6St).2 ≠ (2 : Int) - 1 := by decide

/-- C6 (amended): loop-count equals the number of LINES containing the
first-located datastore phrase minus one; with no located phrase, or
exactly one such line, loop-count is 0 and loop-interval is -1; when
loop-count is positive and the first two phrase lines each carry an
HH:MM:SS timestamp, loop-interval is the difference of those timestamps
in seconds since midnight. -/
theorem claim_C6 (st : RemoteState) :
    ((loop_number st).1 = "" → (loop_number st).2 = 0 ∧ loop_info st = .ok (-1, 0)) ∧
    ((loop_number st).1 ≠ "" →
      (loop_number st).2 = ((keyLines st (loop_number st).1).length : Int) - 1) ∧
    ((loop_number st).1 ≠ "" → (keyLines st (loop_number st).1).length = 1 →
      loop_info st = .ok (-1, 0)) ∧
    (∀ l0 l1 rest t1 t2, (loop_number st).2 > 0 →
      keyLines st (loop_number st).1 = l0 :: l1 :: rest →
      firstTs l0.data = some t1 → firstTs l1.data = some t2 →
      loop_info st = .ok (tsSecs t2 - tsSecs t1, (loop_number st).2)) := by
  refine ⟨?_, ?_, ?_, ?_⟩
  · intro h
    rcases loopNumCases st with hl | ⟨hne, _⟩
    · have h2 : (loop_number st).2 = 0 := by rw [hl]
      exact ⟨h2, loopInfoZero st h2⟩
    · exact absurd h hne
  · intro h
    rcases loopNumCases st with hl | ⟨hne, heq⟩
    · exact absurd (by rw [hl] : (loop_number st).1 = "") h
    · exact congrArg Prod.snd heq
  · intro h hlen
    rcases loopNumCases st with hl | ⟨hne, heq⟩
    · exact absurd (by rw [hl] : (loop_number st).1 = "") h
    · have h2 : (loop_number st).2 = 0 := by
        have h3 := congrArg Prod.snd heq
        simp at h3
        rw [h3, hlen]
        rfl
      exact loopInfoZero st h2
  · intro l0 l1 rest t1 t2 hpos hkl ht1 ht2
    have hne : (loop_number st).2 ≠ 0 := by omega
    unfold loop_info
    simp only [if_pos hne, hkl]
    simp [ht1, ht2, Bind.bind, Except.bind]

/-- C6 witness: on a log with two timestamped datastore lines at
01:00:00 and 01:02:05 the amended theorem yields loop-count 1 and
loop-interval 125 seconds. -/
theorem claim_C6_witness : loop_info c6StW = .ok (125, 1) := by
  have h := (claim_C6 c6StW).2.2.2 ("01:00:00 " ++ c6Phrase) ("01:02:05 " ++ c6Phrase) []
      (1, 0, 0) (1, 2, 5) (by decide) (by decide) (by decide) (by decide)
  rw [h]
  decide

/-- C7: the claim says the mappings field is always a valid, possibly
empty mapping and never an error.  The code violates it: in remote mode
a log that announces a send to an organisation but contains no JSON
block reaches `re.findall(...)[-1]` on an empty list at runner.py line
396, raising IndexError instead of producing an empty mapping. -/
theorem claim_C7 : mappings c7Ctx c7Log = .error .indexError := by decide

/-- C8 counterexample: the claim says analyze is a pure function of
(rawText, context) alone.  Two calls with identical rawText and context
but different remote states (process list, print file) return different
results, so the result is not a function of the text and context
only. -/
theorem claim_C8_counterexample :
    analyzer c8Ctx "" c8StA ≠ analyzer c8Ctx "" c8StB := by decide

/-- C8 (amended): analyze is deterministic as a function of (rawText,
context, remote-state snapshot); the fields debug, oneshot, terminated,
send-count, reporter-id, interval, mappings and hypervisor-id depend
only on (rawText, context), while thread, loop, loop-count, print-json
and the error/warning fields read the remote state at analysis time. -/
theorem claim_C8 (ctx : Ctx) (log : String) (st1 st2 : RemoteState) (r1 r2 : Analysis)
    (h1 : analyzer ctx log st1 = .ok r1) (h2 : analyzer ctx log st2 = .ok r2) :
    r1.debug = r2.debug ∧ r1.oneshot = r2.oneshot ∧ r1.terminate = r2.terminate ∧
    r1.send = r2.send ∧ r1.reporter_id = r2.reporter_id ∧ r1.interval = r2.interval ∧
    r1.mappings = r2.mappings ∧ r1.hypervisor_id = r2.hypervisor_id := by
  unfold analyzer at h1 h2
  cases hi : interval_time log <;> rw [hi] at h1 h2 <;> simp only [] at h1 h2
  · simp at h1
  · cases hl1 : loop_info st1 <;> rw [hl1] at h1 <;> simp only [] at h1
    · simp at h1
    · cases hl2 : loop_info st2 <;> rw [hl2] at h2 <;> simp only [] at h2
      · simp at h2
      · cases hm : mappings ctx log <;> rw [hm] at h1 h2 <;> simp only [] at h1 h2
        · simp at h1
        · rename_i mp
          cases hh : hypervisor_id ctx mp <;> rw [hh] at h1 h2 <;> simp only [] at h1 h2
          · simp at h1
          · simp only [Except.ok.injEq] at h1 h2
            subst h1
            subst h2
            exact ⟨rfl, rfl, rfl, rfl, rfl, rfl, rfl, rfl⟩

/-- C8 witness: the amended theorem applied to the two concrete states
of the counterexample — both analyses succeed and agree on every
text-derived field. -/
theorem claim_C8_witness :
    c8ResA.debug = c8ResB.debug ∧ c8ResA.oneshot = c8ResB.oneshot ∧
    c8ResA.terminate = c8ResB.terminate ∧ c8ResA.send = c8ResB.send ∧
    c8ResA.reporter_id = c8ResB.reporter_id ∧ c8ResA.interval = c8ResB.interval ∧
    c8ResA.mappings = c8ResB.mappings ∧ c8ResA.hypervisor_id = c8ResB.hypervisor_id :=
  claim_C8 c8Ctx "" c8StA c8StB c8ResA c8ResB (by decide) (by decide)

/-- C9 counterexample: the claim says the bracketed ERROR tag is
matched case-insensitively.  The grep in error_warning has no -i flag:
on a log whose only line is a lowercase `[error]` line the code reports
zero error lines, although the line matches the tag
case-insensitively. -/
theorem claim_C9_counterexample :
    error_warning c9St "error" = (0, "") ∧
    lineHasSeqCI ["[", "ERROR", "]"] "[error] oops" = true := by decide

/-- C9 (amended): error-count (resp. warning-count) equals the number
of log lines matching the bracketed uppercase [...ERROR...] (resp.
[...WARNING...]) tag CASE-SENSITIVELY, and the matching lines are
returned verbatim, sorted, joined by newlines, alongside the count. -/
theorem claim_C9 (st : RemoteState) (msg : String) :
    error_warning st msg =
      (((splitLines st.logFile).filter (fun l => lineHasSeqCS ["[", pyUpper msg, "]"] l)).length,
       joinNl (sortStrs ((splitLines st.logFile).filter
         (fun l => lineHasSeqCS ["[", pyUpper msg, "]"] l)))) := by
  unfold error_warning
  simp only []
  have hgood : ∀ m ∈ sortStrs ((splitLines st.logFile).filter
      (fun l => lineHasSeqCS ["[", pyUpper msg, "]"] l)),
      m.data.count '\n' = 0 ∧ '[' ∈ m.data := by
    intro m hm
    have hm2 := memSortStrs m _ hm
    have hm3 := List.mem_filter.mp hm2
    constructor
    · exact List.count_eq_zero.mpr (splitLinesNoNl st.logFile m hm3.1)
    · exact lineBracketMem [pyUpper msg, "]"] m hm3.2
  cases hM : sortStrs ((splitLines st.logFile).filter
      (fun l => lineHasSeqCS ["[", pyUpper msg, "]"] l)) with
  | nil =>
    have hlen : ((splitLines st.logFile).filter
        (fun l => lineHasSeqCS ["[", pyUpper msg, "]"] l)).length = 0 := by
      rw [← sortStrsLen, hM]
      rfl
    have hj : joinNl ([] : List String) = "" := rfl
    rw [hj, if_pos rfl, hlen]
  | cons m ms =>
    have hm0 : '[' ∈ m.data := (hgood m (by rw [hM]; simp)).2
    have hne : joinNl (m :: ms) ≠ "" := by
      intro h
      have h2 : joinNlL ((m :: ms).map String.data) = [] := by
        have h3 := congrArg String.data h
        simpa [joinNl] using h3
      simp only [List.map_cons] at h2
      exact joinNeNil m.data (ms.map String.data) hm0 h2
    rw [if_neg hne]
    have hps : ∀ p ∈ (m :: ms).map String.data, p.count '\n' = 0 ∧ '[' ∈ p := by
      intro p hp
      rcases List.mem_map.mp hp with ⟨x, hx, hxp⟩
      subst hxp
      exact hgood x (by rw [hM]; exact hx)
    have hdata : (joinNl (m :: ms)).data = joinNlL ((m :: ms).map String.data) := rfl
    have hcore := stripJoinCount ((m :: ms).map String.data)
      (fun p hp => (hps p hp).1) (fun p hp => (hps p hp).2) (by simp)
    rw [hdata] at *
    have hsplit := splitLen (stripChars (joinNlL ((m :: ms).map String.data))) []
    have hlen2 : ((splitLines st.logFile).filter
        (fun l => lineHasSeqCS ["[", pyUpper msg, "]"] l)).length = (m :: ms).length := by
      rw [← sortStrsLen, hM]
    rw [hsplit]
    have hmap : ((m :: ms).map String.data).length = (m :: ms).length := by simp
    rw [hlen2]
    congr 1
    omega

/-- C10 counterexample: the claim says the command contains the `-i`
flag if and only if the interval option is set.  With the interval set
to 0 — which is falsy in Python — the built command contains no `-i`
flag. -/
theorem claim_C10_counterexample :
    c10CexOpts.interval.isSome = true ∧
    containsSubCS "-i " (run_cli_cmd .esx c10CexOpts) = false := by decide

set_option maxHeartbeats 2000000

/-- C10 (amended): run_cli builds exactly the string `virt-who `
followed in order by `-d ` when debug, `-o ` when oneshot,
`-i <interval> ` when the interval is set and non-zero, `-p ` when
print is enabled, `-c <file> ` when config is non-empty (with the file
`/etc/virt-who.d/<mode>.conf` when config is "default", else the
override), and ` > /root/print.json` when print is enabled — the same
path the analyzer's print-json field reads. -/
theorem claim_C10 (mode : Mode) (o : CliOpts) : run_cli_cmd mode o = c10Spec mode o := by
  obtain ⟨d, os, itv, p, cfg⟩ := o
  apply strDataEq
  cases d <;> cases os <;> cases p <;> rcases itv with _ | n <;>
    simp only [run_cli_cmd, c10Spec] <;>
    split_ifs <;>
      simp only [String.data_append, dataEmpty, List.append_assoc, List.append_nil,
        List.nil_append]

end Virtwho
